import Mathlib

/-!
Verification of the blink fast-finality quorum protocol implementation
(src/cryptonote_protocol/quorumnet.cpp) against its specification.

The development shallowly embeds the relevant functions of quorumnet.cpp:
machine integers become Nat with explicit reduction modulo 2^64 where
overflow matters, the pending-submission table and the blink cache become
explicit data, fallible code returns Except or Option, and external
collaborators (quorum source, identity directory, connection matrix,
cryptographic signature checking) become function parameters.  Components
whose code lives outside the provided sources (the blink_tx slot store of
cryptonote_core/tx_blink and the blink quorum constants) are modelled from
the specification text and are marked as such in their doc comments.
-/

namespace Quorumnet

/-- Modulus of uint64_t arithmetic. -/
def U64 : Nat := 18446744073709551616

/-- Result enum for a blink submission, mirroring cryptonote::blink_result. -/
inductive blink_result
  | rejected
  | accepted
  | timeout
deriving DecidableEq

/-- One entry of the pending blink submission table pending_blink_results
(struct blink_result_data in quorumnet.cpp) together with its table key:
the random nonzero tag, the submitted tx hash, the promise (modelled as
none while unresolved and some value once set_value succeeded), the expiry
time point, the number of remotes the blink was sent to, and the three
response-class counters. -/
structure blink_result_data where
  tag : Nat
  hash : Nat
  promise : Option (blink_result × String)
  expiry : Nat
  remote_count : Nat
  nostart_count : Nat
  bad_count : Nat
  good_count : Nat
deriving DecidableEq

/-- The expiry sweep performed at the start of send_blink while holding the
unique lock on pending_blink_result_mutex.  For each existing entry the code
tests brd.expiry >= now; when that test holds it calls set_value with
(timeout, "Blink quorum timeout") (swallowing the future_error when the
promise is already satisfied) and erases the entry, and otherwise keeps the
entry.  The result is the table remaining after the sweep together with the
list of (tag, result, message) promise resolutions the sweep performed. -/
def send_blink_sweep (now : Nat) (table : List blink_result_data) :
    List blink_result_data × List (Nat × blink_result × String) :=
  table.foldr
    (fun brd acc =>
      if brd.expiry ≥ now then
        (acc.1,
         (if brd.promise.isNone then
            [(brd.tag, blink_result.timeout, "Blink quorum timeout")]
          else []) ++ acc.2)
      else (brd :: acc.1, acc.2))
    ([], [])

/-- Which of the three response counters a quorum response addresses; the
code passes three mutually exclusive booleans nostart, bad, good. -/
inductive response_kind
  | nostart
  | bad
  | good
deriving DecidableEq

/-- Read the counter selected by nostart / bad / good. -/
def get_count (e : blink_result_data) : response_kind → Nat
  | response_kind.nostart => e.nostart_count
  | response_kind.bad => e.bad_count
  | response_kind.good => e.good_count

/-- Increment (the ++count in common_blink_response) the selected counter. -/
def bump_count (e : blink_result_data) : response_kind → blink_result_data
  | response_kind.nostart => { e with nostart_count := e.nostart_count + 1 }
  | response_kind.bad => { e with bad_count := e.bad_count + 1 }
  | response_kind.good => { e with good_count := e.good_count + 1 }

/-- common_blink_response: look up the pending entry for the tag (absent
means already handled or obsolete: drop), increment the counter of the
response class, and if the incremented counter strictly exceeds
remote_count / 2 try to set the promise value; a future_error (promise
already satisfied) is swallowed and on success the entry is erased under
the unique lock.  Returns the table afterwards and the resolution
performed, if any. -/
def common_blink_response (table : List blink_result_data) (tag : Nat)
    (res : blink_result) (msg : String) (k : response_kind) :
    List blink_result_data × Option (blink_result × String) :=
  match table.find? (fun e => e.tag = tag) with
  | none => (table, none)
  | some e =>
      let count_same := get_count (bump_count e k) k
      if count_same > e.remote_count / 2 then
        if e.promise.isNone then
          (table.filter (fun x => x.tag ≠ tag), some (res, msg))
        else
          (table.map (fun x => if x.tag = tag then bump_count e k else x), none)
      else
        (table.map (fun x => if x.tag = tag then bump_count e k else x), none)

/-- Handler for a bl_nostart message: resolves towards (rejected, e) where e
is the error string carried by the message. -/
def handle_blink_not_started (table : List blink_result_data) (tag : Nat)
    (error_msg : String) : List blink_result_data × Option (blink_result × String) :=
  common_blink_response table tag blink_result.rejected error_msg response_kind.nostart

/-- Handler for a bl_bad message: resolves towards
(rejected, "Transaction rejected by quorum"). -/
def handle_blink_failure (table : List blink_result_data) (tag : Nat) :
    List blink_result_data × Option (blink_result × String) :=
  common_blink_response table tag blink_result.rejected "Transaction rejected by quorum"
    response_kind.bad

/-- Handler for a bl_good message: resolves towards (accepted, ""). -/
def handle_blink_success (table : List blink_result_data) (tag : Nat) :
    List blink_result_data × Option (blink_result × String) :=
  common_blink_response table tag blink_result.accepted "" response_kind.good

/-- A pending entry whose 30-second expiry has already passed at sweep time
(expiry 10 earlier than now = 50). -/
def sweep_entry_expired : blink_result_data :=
  { tag := 1, hash := 11, promise := none, expiry := 10, remote_count := 4,
    nostart_count := 0, bad_count := 0, good_count := 0 }

/-- A pending entry whose expiry is still in the future at sweep time
(expiry 100 later than now = 50), i.e. a live submission. -/
def sweep_entry_live : blink_result_data :=
  { tag := 2, hash := 22, promise := none, expiry := 100, remote_count := 4,
    nostart_count := 0, bad_count := 0, good_count := 0 }

/-- C1: the sweep in send_blink is meant to resolve with
(timeout, "Blink quorum timeout") and erase exactly the entries whose
expiry has passed, retaining unexpired entries unresolved.  The code tests
brd.expiry >= now, which is inverted: at now = 50 the entry with expiry 10
(already expired) is retained unresolved while the live entry with expiry
100 is resolved as a timeout and erased. -/
theorem send_blink_sweep_inverted_expiry :
    send_blink_sweep 50 [sweep_entry_expired, sweep_entry_live] =
      ([sweep_entry_expired], [(2, blink_result.timeout, "Blink quorum timeout")]) := by
  rfl

/-- Quorum type enum (service_nodes::quorum_type): obligations = 0,
checkpointing = 1, blink = 2. -/
inductive quorum_type
  | obligations
  | checkpointing
  | blink
deriving DecidableEq

/-- Integer code of a quorum_type as cast by static_cast in serialize_vote. -/
def quorum_type.code : quorum_type → Nat
  | quorum_type.obligations => 0
  | quorum_type.checkpointing => 1
  | quorum_type.blink => 2

/-- get_enum for quorum_type: accept integers below the enum count. -/
def to_quorum_type : Nat → Option quorum_type
  | 0 => some quorum_type.obligations
  | 1 => some quorum_type.checkpointing
  | 2 => some quorum_type.blink
  | _ => none

/-- Voter group enum (service_nodes::quorum_group): invalid = 0,
validator = 1, worker = 2. -/
inductive quorum_group
  | invalid
  | validator
  | worker
deriving DecidableEq

/-- Integer code of a quorum_group. -/
def quorum_group.code : quorum_group → Nat
  | quorum_group.invalid => 0
  | quorum_group.validator => 1
  | quorum_group.worker => 2

/-- get_enum for quorum_group: accept integers below the enum count. -/
def to_quorum_group : Nat → Option quorum_group
  | 0 => some quorum_group.invalid
  | 1 => some quorum_group.validator
  | 2 => some quorum_group.worker
  | _ => none

/-- Target state enum for an obligations state-change vote
(service_nodes::new_state). -/
inductive new_state
  | decommission
  | recommission
  | deregister
  | ip_change_penalty
deriving DecidableEq

/-- Integer code of a new_state as cast in serialize_vote. -/
def new_state.code : new_state → Nat
  | new_state.decommission => 0
  | new_state.recommission => 1
  | new_state.deregister => 2
  | new_state.ip_change_penalty => 3

/-- get_enum for new_state: accept integers below the enum count. -/
def to_new_state : Nat → Option new_state
  | 0 => some new_state.decommission
  | 1 => some new_state.recommission
  | 2 => some new_state.deregister
  | 3 => some new_state.ip_change_penalty
  | _ => none

/-- Payload of an obligations vote: worker index and the target state. -/
structure state_change_vote where
  worker_index : Nat
  state : new_state
deriving DecidableEq

/-- Payload of a checkpointing vote: the 32-byte block hash, abstracted. -/
structure checkpoint_vote where
  block_hash : Nat
deriving DecidableEq

/-- A quorum vote (service_nodes::quorum_vote_t).  In C++ the checkpoint and
state_change payloads live in one union; here both members are present and
only the one selected by the vote type is serialized.  The 64-byte
signature is abstracted to a Nat. -/
structure quorum_vote_t where
  version : Nat
  type : quorum_type
  block_height : Nat
  group : quorum_group
  index_in_group : Nat
  signature : Nat
  checkpoint : checkpoint_vote
  state_change : state_change_vote
deriving DecidableEq

/-- The bt_dict produced by serialize_vote, one field per dictionary key:
v, t, h, g, i, s always present, bh only for checkpointing votes and
wi / sc only for the other vote types. -/
structure vote_wire where
  v : Nat
  t : Nat
  h : Nat
  g : Nat
  i : Nat
  s : Nat
  bh : Option Nat
  wi : Option Nat
  sc : Option Nat
deriving DecidableEq

/-- serialize_vote: write the common fields, then bh for a checkpointing
vote and wi plus sc for every other vote type. -/
def serialize_vote (vote : quorum_vote_t) : vote_wire :=
  { v := vote.version
    t := vote.type.code
    h := vote.block_height
    g := vote.group.code
    i := vote.index_in_group
    s := vote.signature
    bh := if vote.type = quorum_type.checkpointing then some vote.checkpoint.block_hash else none
    wi := if vote.type = quorum_type.checkpointing then none else some vote.state_change.worker_index
    sc := if vote.type = quorum_type.checkpointing then none else some vote.state_change.state.code }

/-- deserialize_vote.  The C++ function declares a stack quorum_vote_t and
assigns its fields from the dictionary; the garbage argument models the
indeterminate initial contents of that stack variable.  The enum fields go
through get_enum (which throws on an out-of-range integer), the group must
not be invalid, and absent mandatory keys throw (bt_dict::at).  In the
non-checkpointing branch the code evaluates get_enum of field sc but
discards the result, so state_change.state keeps its initial indeterminate
value. -/
def deserialize_vote (garbage : quorum_vote_t) (w : vote_wire) :
    Except String quorum_vote_t := do
  let t ← match to_quorum_type w.t with
    | some t => pure t
    | none => Except.error "invalid enum value for field t"
  let g ← match to_quorum_group w.g with
    | some g => pure g
    | none => Except.error "invalid enum value for field g"
  if g = quorum_group.invalid then
    Except.error "invalid vote group"
  else if t = quorum_type.checkpointing then
    match w.bh with
    | none => Except.error "missing field bh"
    | some bh =>
        pure { garbage with
                version := w.v, type := t, block_height := w.h, group := g,
                index_in_group := w.i, signature := w.s,
                checkpoint := { block_hash := bh } }
  else
    match w.wi, w.sc with
    | some wi, some scv =>
        match to_new_state scv with
        | none => Except.error "invalid enum value for field sc"
        | some _ =>
            pure { garbage with
                    version := w.v, type := t, block_height := w.h, group := g,
                    index_in_group := w.i, signature := w.s,
                    state_change := { worker_index := wi,
                                      state := garbage.state_change.state } }
    | _, _ => Except.error "missing field wi or sc"

/-- A legal obligations vote whose target state is recommission. -/
def c3_vote : quorum_vote_t :=
  { version := 1, type := quorum_type.obligations, block_height := 100,
    group := quorum_group.validator, index_in_group := 3, signature := 42,
    checkpoint := { block_hash := 0 },
    state_change := { worker_index := 5, state := new_state.recommission } }

/-- One possible content of the uninitialized stack quorum_vote_t in
deserialize_vote; its union member state reads as decommission.  All the
fields that deserialize_vote assigns are irrelevant, and the inactive
checkpoint union member is chosen to match c3_vote so that the state field
is the only possible difference. -/
def c3_garbage : quorum_vote_t :=
  { version := 0, type := quorum_type.blink, block_height := 0,
    group := quorum_group.invalid, index_in_group := 0, signature := 0,
    checkpoint := { block_hash := 0 },
    state_change := { worker_index := 0, state := new_state.decommission } }

/-- C3: the vote round trip does not preserve state_change.state.  For the
legal obligations vote c3_vote (state = recommission),
deserialize_vote (serialize_vote c3_vote) succeeds but returns a vote whose
state is whatever the uninitialized stack memory held (here decommission):
the code validates field sc with get_enum but discards the value instead of
assigning vote.state_change.state. -/
theorem deserialize_serialize_vote_drops_state :
    deserialize_vote c3_garbage (serialize_vote c3_vote) =
      Except.ok { c3_vote with
                   state_change := { worker_index := 5,
                                     state := new_state.decommission } } ∧
    deserialize_vote c3_garbage (serialize_vote c3_vote) ≠ Except.ok c3_vote := by
  constructor
  · rfl
  · intro h
    simp only [deserialize_vote, serialize_vote] at h
    exact absurd (Except.ok.inj h) (by decide)

/-- Outcome of the height-window test at the top of handle_blink: reply
with bl_nostart (when a tag is present), silently drop, or continue the
pipeline. -/
inductive blink_height_check
  | reply_nostart (tag : Nat) (e : String)
  | drop
  | proceed
deriving DecidableEq

/-- Height-window test of handle_blink.  local_height - 2 and
local_height + 2 are computed in uint64_t arithmetic, so the subtraction
wraps around zero; both operands are uint64 values below U64.  The code
rejects when blink_height < local_height - 2 or
blink_height > local_height + 2, replying bl_nostart with
"Invalid blink authorization height" when the submitter tag is nonzero and
silently dropping otherwise. -/
def handle_blink_height_check (tag blink_height local_height : Nat) : blink_height_check :=
  if blink_height < (local_height + (U64 - 2)) % U64 then
    if tag ≠ 0 then
      blink_height_check.reply_nostart tag "Invalid blink authorization height"
    else blink_height_check.drop
  else if blink_height > (local_height + 2) % U64 then
    if tag ≠ 0 then
      blink_height_check.reply_nostart tag "Invalid blink authorization height"
    else blink_height_check.drop
  else blink_height_check.proceed

/-- C5 counterexample: at current height 0 and blink height 0 (difference
0, well within the tolerance of 2) the claim requires the message not to be
rejected on height grounds, but the wrapped uint64 subtraction 0 - 2 makes
the lower bound huge and the code replies bl_nostart. -/
theorem handle_blink_height_check_rejects_at_genesis :
    handle_blink_height_check 1 0 0 ≠ blink_height_check.proceed ∧
    handle_blink_height_check 1 0 0 =
      blink_height_check.reply_nostart 1 "Invalid blink authorization height" := by
  constructor
  · decide
  · decide

/-- C5 amended: for 2 ≤ local height c ≤ U64 - 3 the height test behaves
exactly as the claim states (reject with bl_nostart or drop when the
distance between h and c exceeds 2, continue otherwise); when c < 2 or
c > U64 - 3 the wrapped uint64 window rejects every height. -/
theorem handle_blink_height_check_spec (tag h c : Nat)
    (hh : h < U64) (hc : c < U64) :
    handle_blink_height_check tag h c =
      (if 2 ≤ c ∧ c ≤ U64 - 3 then
        (if h + 2 < c ∨ c + 2 < h then
          (if tag ≠ 0 then
            blink_height_check.reply_nostart tag "Invalid blink authorization height"
          else blink_height_check.drop)
        else blink_height_check.proceed)
      else
        (if tag ≠ 0 then
          blink_height_check.reply_nostart tag "Invalid blink authorization height"
        else blink_height_check.drop)) := by
  simp only [handle_blink_height_check, U64] at *
  split_ifs <;> first | rfl | omega

/-- C5 amended witness: at local height 10 a blink height of 13 (distance
3) is rejected with a bl_nostart reply carrying the tag. -/
theorem handle_blink_height_check_spec_witness :
    (13 : Nat) < U64 ∧ (10 : Nat) < U64 ∧
    handle_blink_height_check 9 13 10 =
      (if 2 ≤ (10 : Nat) ∧ (10 : Nat) ≤ U64 - 3 then
        (if 13 + 2 < 10 ∨ 10 + 2 < 13 then
          (if (9 : Nat) ≠ 0 then
            blink_height_check.reply_nostart 9 "Invalid blink authorization height"
          else blink_height_check.drop)
        else blink_height_check.proceed)
      else
        (if (9 : Nat) ≠ 0 then
          blink_height_check.reply_nostart 9 "Invalid blink authorization height"
        else blink_height_check.drop)) :=
  ⟨by decide, by decide, handle_blink_height_check_spec 9 13 10 (by decide) (by decide)⟩

/-- Validator primary public keys, abstracted to Nat. -/
abbrev Pubkey := Nat

/-- Modelled from the spec: the blink quorum size constants live in
cryptonote_config / service_node_rules, which are not part of the provided
sources.  The specification fixes BLINK_MIN_VOTES > BLINK_SUBQUORUM_SIZE/2
and its happy-path scenario uses a subquorum of 10 with BLINK_MIN_VOTES 7. -/
def BLINK_SUBQUORUM_SIZE : Nat := 10

/-- Modelled from the spec: minimum approvals a subquorum needs, 7 (see
BLINK_SUBQUORUM_SIZE). -/
def BLINK_MIN_VOTES : Nat := 7

/-- Failure mode of get_blink_quorums: either a std::runtime_error with a
message (which handle_blink catches and can turn into a bl_nostart reply),
or the undefined behavior of dereferencing the null quorum pointer
returned by the external quorum source, which no handler catches. -/
inductive gbq_fail
  | thrown (msg : String)
  | segfault
deriving DecidableEq

/-- One iteration of the subquorum loop of get_blink_quorums: compute the
subquorum height via blink_tx::quorum_height (0 means too early in the
chain: throw), fetch the quorum from the external quorum source, and
immediately bind the validators member of the fetched quorum — the code
performs this dereference without checking the pointer, so a none result
is the segfault outcome.  Then check the size bounds and return the
validator list together with its checksum contribution
quorum_checksum(v, qi * BLINK_SUBQUORUM_SIZE). -/
def get_blink_quorums_step (get_quorum : Nat → Option (List Pubkey))
    (qcs : List Pubkey → Nat → Nat) (quorum_height : Nat → Nat → Nat)
    (blink_height : Nat) (qi : Nat) : Except gbq_fail (List Pubkey × Nat) :=
  let h := quorum_height blink_height qi
  if h = 0 then
    Except.error (gbq_fail.thrown "too early in blockchain to create a quorum")
  else
    match get_quorum h with
    | none => Except.error gbq_fail.segfault
    | some v =>
        if v.length < BLINK_MIN_VOTES ∨ v.length > BLINK_SUBQUORUM_SIZE then
          Except.error (gbq_fail.thrown "not enough blink nodes to form a quorum")
        else Except.ok (v, qcs v (qi * BLINK_SUBQUORUM_SIZE))

/-- get_blink_quorums: run the loop body for the two blink subquorums,
accumulate the local checksum in uint64 arithmetic, and when an input
checksum is supplied throw on a mismatch; on success return both
subquorums and the local checksum. -/
def get_blink_quorums (get_quorum : Nat → Option (List Pubkey))
    (qcs : List Pubkey → Nat → Nat) (quorum_height : Nat → Nat → Nat)
    (blink_height : Nat) (input_checksum : Option Nat) :
    Except gbq_fail (List (List Pubkey) × Nat) :=
  match get_blink_quorums_step get_quorum qcs quorum_height blink_height 0 with
  | Except.error e => Except.error e
  | Except.ok r0 =>
      match get_blink_quorums_step get_quorum qcs quorum_height blink_height 1 with
      | Except.error e => Except.error e
      | Except.ok r1 =>
          let local_checksum := (r0.2 + r1.2) % U64
          match input_checksum with
          | some ic =>
              if ic ≠ local_checksum then
                Except.error (gbq_fail.thrown
                  ("wrong quorum checksum: expected " ++ toString local_checksum ++
                   ", received " ++ toString ic))
              else Except.ok ([r0.1, r1.1], local_checksum)
          | none => Except.ok ([r0.1, r1.1], local_checksum)

/-- Outcome of the quorum-construction step of handle_blink: the quorums
were obtained (pipeline continues), or get_blink_quorums threw and the
handler replies bl_nostart (nonzero tag) or silently drops (zero tag), or
the process crashed inside get_blink_quorums. -/
inductive quorum_step_outcome
  | ok (quorums : List (List Pubkey)) (checksum : Nat)
  | reply_nostart (tag : Nat) (e : String)
  | drop
  | crash
deriving DecidableEq

/-- The quorum-construction step of handle_blink: call get_blink_quorums
with the checksum taken from the message; a caught runtime_error is
answered with bl_nostart{tag, e: "Unable to retrieve blink quorum: " ++
what} when the tag is nonzero and otherwise dropped. -/
def handle_blink_quorum_step (get_quorum : Nat → Option (List Pubkey))
    (qcs : List Pubkey → Nat → Nat) (quorum_height : Nat → Nat → Nat)
    (blink_height tag checksum : Nat) : quorum_step_outcome :=
  match get_blink_quorums get_quorum qcs quorum_height blink_height (some checksum) with
  | Except.ok (qs, cs) => quorum_step_outcome.ok qs cs
  | Except.error (gbq_fail.thrown msg) =>
      if tag ≠ 0 then
        quorum_step_outcome.reply_nostart tag ("Unable to retrieve blink quorum: " ++ msg)
      else quorum_step_outcome.drop
  | Except.error gbq_fail.segfault => quorum_step_outcome.crash

/-- C6: when the subquorum heights are available and the quorum source has
a quorum at both of them, get_blink_quorums succeeds exactly when both
subquorum sizes lie in [BLINK_MIN_VOTES, BLINK_SUBQUORUM_SIZE] and the
supplied checksum equals the uint64 sum of the per-subquorum checksums
offset by qi * BLINK_SUBQUORUM_SIZE; on success it returns exactly the two
subquorums; and on failure an inbound blink with a nonzero tag is answered
with a bl_nostart reply carrying an explanatory message. -/
theorem get_blink_quorums_spec (get_quorum : Nat → Option (List Pubkey))
    (qcs : List Pubkey → Nat → Nat) (quorum_height : Nat → Nat → Nat)
    (bh ic : Nat) (v0 v1 : List Pubkey)
    (h0 : quorum_height bh 0 ≠ 0) (h1 : quorum_height bh 1 ≠ 0)
    (hq0 : get_quorum (quorum_height bh 0) = some v0)
    (hq1 : get_quorum (quorum_height bh 1) = some v1) :
    ((get_blink_quorums get_quorum qcs quorum_height bh (some ic)).isOk ↔
      (BLINK_MIN_VOTES ≤ v0.length ∧ v0.length ≤ BLINK_SUBQUORUM_SIZE ∧
       BLINK_MIN_VOTES ≤ v1.length ∧ v1.length ≤ BLINK_SUBQUORUM_SIZE ∧
       ic = (qcs v0 (0 * BLINK_SUBQUORUM_SIZE) + qcs v1 (1 * BLINK_SUBQUORUM_SIZE)) % U64)) ∧
    ((get_blink_quorums get_quorum qcs quorum_height bh (some ic)).isOk →
      get_blink_quorums get_quorum qcs quorum_height bh (some ic) =
        Except.ok ([v0, v1], ic)) ∧
    (∀ tag : Nat, tag ≠ 0 →
      ¬ (get_blink_quorums get_quorum qcs quorum_height bh (some ic)).isOk →
      ∃ e, handle_blink_quorum_step get_quorum qcs quorum_height bh tag ic =
        quorum_step_outcome.reply_nostart tag e) := by
  by_cases hs0 : v0.length < BLINK_MIN_VOTES ∨ v0.length > BLINK_SUBQUORUM_SIZE
  · have geq : get_blink_quorums get_quorum qcs quorum_height bh (some ic) =
        Except.error (gbq_fail.thrown "not enough blink nodes to form a quorum") := by
      simp only [get_blink_quorums, get_blink_quorums_step, if_neg h0, hq0, if_pos hs0]
    refine ⟨?_, ?_, ?_⟩
    · rw [geq]
      constructor
      · intro h; simp [Except.isOk, Except.toBool] at h
      · intro h
        obtain ⟨a, b, _⟩ := h
        simp only [BLINK_MIN_VOTES, BLINK_SUBQUORUM_SIZE] at a b hs0
        omega
    · rw [geq]; intro h; simp [Except.isOk, Except.toBool] at h
    · intro tag htag _
      refine ⟨"Unable to retrieve blink quorum: " ++ "not enough blink nodes to form a quorum", ?_⟩
      simp only [handle_blink_quorum_step, geq, if_pos htag]
  · by_cases hs1 : v1.length < BLINK_MIN_VOTES ∨ v1.length > BLINK_SUBQUORUM_SIZE
    · have geq : get_blink_quorums get_quorum qcs quorum_height bh (some ic) =
          Except.error (gbq_fail.thrown "not enough blink nodes to form a quorum") := by
        simp only [get_blink_quorums, get_blink_quorums_step, if_neg h0, if_neg h1,
          hq0, hq1, if_neg hs0, if_pos hs1]
      refine ⟨?_, ?_, ?_⟩
      · rw [geq]
        constructor
        · intro h; simp [Except.isOk, Except.toBool] at h
        · intro h
          obtain ⟨_, _, a, b, _⟩ := h
          simp only [BLINK_MIN_VOTES, BLINK_SUBQUORUM_SIZE] at a b hs1
          omega
      · rw [geq]; intro h; simp [Except.isOk, Except.toBool] at h
      · intro tag htag _
        refine ⟨"Unable to retrieve blink quorum: " ++ "not enough blink nodes to form a quorum", ?_⟩
        simp only [handle_blink_quorum_step, geq, if_pos htag]
    · by_cases hcs : ic = (qcs v0 (0 * BLINK_SUBQUORUM_SIZE) + qcs v1 (1 * BLINK_SUBQUORUM_SIZE)) % U64
      · have geq : get_blink_quorums get_quorum qcs quorum_height bh (some ic) =
            Except.ok ([v0, v1],
              (qcs v0 (0 * BLINK_SUBQUORUM_SIZE) + qcs v1 (1 * BLINK_SUBQUORUM_SIZE)) % U64) := by
          simp only [get_blink_quorums, get_blink_quorums_step, if_neg h0, if_neg h1,
            hq0, hq1, if_neg hs0, if_neg hs1,
            if_neg (show ¬ (ic ≠ (qcs v0 (0 * BLINK_SUBQUORUM_SIZE) + qcs v1 (1 * BLINK_SUBQUORUM_SIZE)) % U64)
              from fun hh => hh hcs)]
        refine ⟨?_, ?_, ?_⟩
        · rw [geq]
          constructor
          · intro _
            refine ⟨?_, ?_, ?_, ?_, hcs⟩ <;>
              (simp only [BLINK_MIN_VOTES, BLINK_SUBQUORUM_SIZE] at hs0 hs1 ⊢; omega)
          · intro _; rfl
        · intro _
          rw [geq, hcs]
        · intro tag htag hnok
          exact absurd (by rw [geq]; rfl) hnok
      · have geq : get_blink_quorums get_quorum qcs quorum_height bh (some ic) =
            Except.error (gbq_fail.thrown
              ("wrong quorum checksum: expected " ++
               toString ((qcs v0 (0 * BLINK_SUBQUORUM_SIZE) + qcs v1 (1 * BLINK_SUBQUORUM_SIZE)) % U64) ++
               ", received " ++ toString ic)) := by
          simp only [get_blink_quorums, get_blink_quorums_step, if_neg h0, if_neg h1,
            hq0, hq1, if_neg hs0, if_neg hs1, if_pos hcs]
        refine ⟨?_, ?_, ?_⟩
        · rw [geq]
          constructor
          · intro h; simp [Except.isOk, Except.toBool] at h
          · intro h; exact absurd h.2.2.2.2 hcs
        · rw [geq]; intro h; simp [Except.isOk, Except.toBool] at h
        · intro tag htag _
          refine ⟨"Unable to retrieve blink quorum: " ++
              ("wrong quorum checksum: expected " ++
               toString ((qcs v0 (0 * BLINK_SUBQUORUM_SIZE) + qcs v1 (1 * BLINK_SUBQUORUM_SIZE)) % U64) ++
               ", received " ++ toString ic), ?_⟩
          simp only [handle_blink_quorum_step, geq, if_pos htag]

/-- Quorum source for the C6 witness: seven validators at height 100 and
seven other validators at height 101. -/
def c6_get_quorum : Nat → Option (List Pubkey) := fun h =>
  if h = 100 then some [1, 2, 3, 4, 5, 6, 7]
  else if h = 101 then some [8, 9, 10, 11, 12, 13, 14]
  else none

/-- Checksum function for the C6 witness: validator count plus offset. -/
def c6_qcs : List Pubkey → Nat → Nat := fun v off => v.length + off

/-- Subquorum heights for the C6 witness: base height plus subquorum
index. -/
def c6_quorum_height : Nat → Nat → Nat := fun bh qi => bh + qi

/-- C6 witness: the specification theorem applied at blink height 100 with
the matching checksum 24 = (7 + 0) + (7 + 10). -/
theorem get_blink_quorums_spec_witness :
    c6_quorum_height 100 0 ≠ 0 ∧ c6_quorum_height 100 1 ≠ 0 ∧
    c6_get_quorum (c6_quorum_height 100 0) = some [1, 2, 3, 4, 5, 6, 7] ∧
    c6_get_quorum (c6_quorum_height 100 1) = some [8, 9, 10, 11, 12, 13, 14] ∧
    (((get_blink_quorums c6_get_quorum c6_qcs c6_quorum_height 100 (some 24)).isOk ↔
      (BLINK_MIN_VOTES ≤ ([1, 2, 3, 4, 5, 6, 7] : List Pubkey).length ∧
       ([1, 2, 3, 4, 5, 6, 7] : List Pubkey).length ≤ BLINK_SUBQUORUM_SIZE ∧
       BLINK_MIN_VOTES ≤ ([8, 9, 10, 11, 12, 13, 14] : List Pubkey).length ∧
       ([8, 9, 10, 11, 12, 13, 14] : List Pubkey).length ≤ BLINK_SUBQUORUM_SIZE ∧
       24 = (c6_qcs [1, 2, 3, 4, 5, 6, 7] (0 * BLINK_SUBQUORUM_SIZE) +
             c6_qcs [8, 9, 10, 11, 12, 13, 14] (1 * BLINK_SUBQUORUM_SIZE)) % U64)) ∧
    ((get_blink_quorums c6_get_quorum c6_qcs c6_quorum_height 100 (some 24)).isOk →
      get_blink_quorums c6_get_quorum c6_qcs c6_quorum_height 100 (some 24) =
        Except.ok ([[1, 2, 3, 4, 5, 6, 7], [8, 9, 10, 11, 12, 13, 14]], 24)) ∧
    (∀ tag : Nat, tag ≠ 0 →
      ¬ (get_blink_quorums c6_get_quorum c6_qcs c6_quorum_height 100 (some 24)).isOk →
      ∃ e, handle_blink_quorum_step c6_get_quorum c6_qcs c6_quorum_height 100 tag 24 =
        quorum_step_outcome.reply_nostart tag e)) :=
  ⟨by decide, by decide, by decide, by decide,
   get_blink_quorums_spec c6_get_quorum c6_qcs c6_quorum_height 100 24
     [1, 2, 3, 4, 5, 6, 7] [8, 9, 10, 11, 12, 13, 14]
     (by decide) (by decide) (by decide) (by decide)⟩

/-- A quorum source for blink height 100 that has a quorum only at
subquorum height 100; the lookup for the second subquorum height 101
returns none (the external source may return none per its interface). -/
def c10_get_quorum : Nat → Option (List Pubkey) :=
  fun h => if h = 100 then some [1, 2, 3, 4, 5, 6, 7] else none

/-- Subquorum heights for the C10 scenario: base height plus the subquorum
index, never zero. -/
def c10_quorum_height : Nat → Nat → Nat := fun bh qi => bh + qi

/-- C10: when the external quorum source returns none for one of the two
blink subquorums, get_blink_quorums does not report an error: the code
binds result[qi]->validators without checking the pointer, so the absent
quorum is dereferenced (the segfault outcome of the model) instead of the
size check being guarded by a successful lookup. -/
theorem get_blink_quorums_null_quorum_deref :
    get_blink_quorums c10_get_quorum (fun _ _ => 0) c10_quorum_height 100 (some 0) =
      Except.error gbq_fail.segfault := by
  rfl

/-- Presence (and for the height its value) of each field of an inbound
blink_sign message as scanned by the key loop of handle_blink_signature. -/
structure blink_sign_fields where
  h : Option Nat
  has_hash : Bool
  has_q : Bool
  has_i : Bool
  has_r : Bool
  has_p : Bool
  has_s : Bool
deriving DecidableEq

/-- The missing-required-fields test of handle_blink_signature.  The
handler declares bool saw_checksum = false, saw_hash = false, saw_i,
saw_r, saw_p, saw_s; — the last four flags have no initializer.  The key
loop sets a flag to true when the corresponding field occurs in the
message, so for an absent field the flag keeps its indeterminate initial
stack value, modelled by the garbage_i, garbage_r, garbage_p, garbage_s
arguments.  blink_height starts at 0 and is assigned when field h is
present.  Returns true when the handler raises the invalid_argument error
"Invalid blink signature data: missing required fields". -/
def handle_blink_signature_missing_check
    (garbage_i garbage_r garbage_p garbage_s : Bool) (f : blink_sign_fields) : Bool :=
  let blink_height := f.h.getD 0
  let saw_hash := f.has_hash
  let saw_checksum := f.has_q
  let saw_i := if f.has_i then true else garbage_i
  let saw_r := if f.has_r then true else garbage_r
  let saw_p := if f.has_p then true else garbage_p
  let saw_s := if f.has_s then true else garbage_s
  !(decide (blink_height ≠ 0) && saw_hash && saw_checksum && saw_i && saw_r && saw_p && saw_s)

/-- A blink_sign message carrying h, hash, q, i, p and r but no s list. -/
def c9_message : blink_sign_fields :=
  { h := some 100, has_hash := true, has_q := true,
    has_i := true, has_r := true, has_p := true, has_s := false }

/-- C9: whether a blink_sign message that omits the s list is rejected as
missing required fields depends on the indeterminate initial value of the
uninitialized flag saw_s: with the stack value false the message is
rejected as the claim states, but with the stack value true the check
passes and the handler goes on to process the signature lists. -/
theorem handle_blink_signature_uninitialized_flags :
    handle_blink_signature_missing_check false false false false c9_message = true ∧
    handle_blink_signature_missing_check false false false true c9_message = false := by
  constructor
  · rfl
  · rfl

/-- x25519 transport keys, abstracted to Nat. -/
abbrev X25519 := Nat

/-- Connection information of a registered active service node as produced
by the identity-directory lookup used in the peer_info constructor: the
x25519 key from the proof and the tcp connect string built from its public
ip and quorumnet port. -/
structure sn_proof where
  x25519 : X25519
  addr : String
deriving DecidableEq

/-- The peers map being built by peer_info: an association from x25519 key
to connect string — non-empty for a strong peer, empty for an opportunistic
weak peer — plus the running strong_peers counter. -/
structure PeerState where
  peers : List (X25519 × String)
  strong_peers : Nat
deriving DecidableEq

/-- Lookup of an x25519 key in the peers map. -/
def peers_find (ps : List (X25519 × String)) (x : X25519) : Option String :=
  (ps.find? (fun p => p.1 = x)).map (fun p => p.2)

/-- peer_info::add_peer: look the pubkey up in remotes (no entry: nothing
happens); emplace the x25519 key with the connect string when strong and
the empty string when weak; when the key is already present, a weak entry
is upgraded in place if strong is requested, and otherwise the map is left
alone.  strong_peers counts new strong entries and upgrades. -/
def add_peer (remotes : Pubkey → Option sn_proof) (strong : Bool)
    (st : PeerState) (pubkey : Pubkey) : PeerState :=
  match remotes pubkey with
  | none => st
  | some pr =>
      let remote_addr := if strong then pr.addr else ""
      match peers_find st.peers pr.x25519 with
      | none =>
          { peers := st.peers ++ [(pr.x25519, remote_addr)]
            strong_peers := if strong then st.strong_peers + 1 else st.strong_peers }
      | some existing =>
          if strong ∧ existing = "" then
            { peers := st.peers.map (fun p => if p.1 = pr.x25519 then (p.1, pr.addr) else p)
              strong_peers := st.strong_peers + 1 }
          else st

/-- Position of the callers pubkey in a validator list (std::find in the
peer_info constructor), -1 when absent. -/
def find_position (my_pubkey : Pubkey) (v : List Pubkey) : Int :=
  match v.findIdx? (fun x => x = my_pubkey) with
  | none => -1
  | some n => (n : Int)

/-- The need_remotes set of the peer_info constructor: for each quorum the
validators at the quorum_outgoing_conns indices and (when opportunistic)
the quorum_incoming_conns indices of the callers position, with excluded
pubkeys skipped.  The inter-quorum bridge targets are notably not
collected here. -/
def need_remotes_list (oc ic : Int → Nat → List Nat) (opportunistic : Bool)
    (exclude : List Pubkey) (quorums : List (List Pubkey))
    (my_position : List Int) : List Pubkey :=
  (List.range quorums.length).foldl
    (fun acc i =>
      let v := quorums.getD i []
      let pos := my_position.getD i (-1)
      let outs := (oc pos v.length).filterMap
        (fun j => if (v.getD j 0) ∈ exclude then none else some (v.getD j 0))
      let ins :=
        if opportunistic then
          (ic pos v.length).filterMap
            (fun j => if (v.getD j 0) ∈ exclude then none else some (v.getD j 0))
        else []
      acc ++ outs ++ ins) []

/-- The remotes map of the peer_info constructor: the identity-directory
lookup (which yields nothing for inactive nodes or nodes without x25519
key, ip or port) restricted to the need_remotes set. -/
def remotes_map (sn_lookup : Pubkey → Option sn_proof) (need : List Pubkey) :
    Pubkey → Option sn_proof :=
  fun pk => if pk ∈ need then sn_lookup pk else none

/-- The forward inter-quorum bridge of compute_peers: when the caller is in
quorum i but not in quorum i+1 and its position lies in [half, 2*half)
where half is half the smaller quorum size, the code calls
add_peer(validators[my_position[i] - half]) — indexing the CURRENT quorum
validator list, although its own trace message and comment name the next
quorum (next_validators). -/
def forward_bridge_add (remotes : Pubkey → Option sn_proof)
    (quorums : List (List Pubkey)) (my_position : List Int) (i : Nat)
    (st : PeerState) : PeerState :=
  let v := quorums.getD i []
  let pos := my_position.getD i (-1)
  if i + 1 < quorums.length ∧ my_position.getD (i + 1) (-1) < 0 then
    let next_v := quorums.getD (i + 1) []
    let half : Int := ((min v.length next_v.length) / 2 : Nat)
    if half ≤ pos ∧ pos < half * 2 then
      add_peer remotes true st (v.getD (pos - half).toNat 0)
    else st
  else st

/-- The reverse inter-quorum bridge of compute_peers: when the caller is in
quorum i but not in quorum i-1 and its position is below half, the code
calls add_peer(prev_validators[half + my_position[i]]) with the default
strong = true. -/
def reverse_bridge_add (remotes : Pubkey → Option sn_proof)
    (quorums : List (List Pubkey)) (my_position : List Int) (i : Nat)
    (st : PeerState) : PeerState :=
  let v := quorums.getD i []
  let pos := my_position.getD i (-1)
  if 0 < i ∧ my_position.getD (i - 1) (-1) < 0 then
    let prev_v := quorums.getD (i - 1) []
    let half : Int := ((min v.length prev_v.length) / 2 : Nat)
    if pos < half then
      add_peer remotes true st (prev_v.getD (half + pos).toNat 0)
    else st
  else st

/-- One iteration of the quorum loop of compute_peers: skip quorums the
caller is not in; add the outgoing connection targets as strong peers and
(when opportunistic) the incoming connection sources as weak peers; then
apply the forward and reverse inter-quorum bridges. -/
def compute_peers_step (remotes : Pubkey → Option sn_proof)
    (oc ic : Int → Nat → List Nat) (opportunistic : Bool)
    (quorums : List (List Pubkey)) (my_position : List Int)
    (st : PeerState) (i : Nat) : PeerState :=
  let v := quorums.getD i []
  let pos := my_position.getD i (-1)
  if pos < 0 then st
  else
    let st1 := (oc pos v.length).foldl (fun s j => add_peer remotes true s (v.getD j 0)) st
    let st2 :=
      if opportunistic then
        (ic pos v.length).foldl (fun s j => add_peer remotes false s (v.getD j 0)) st1
      else st1
    let st3 := forward_bridge_add remotes quorums my_position i st2
    reverse_bridge_add remotes quorums my_position i st3

/-- The outputs of the peer_info constructor that the protocol uses: the
positions of the caller in each quorum, how many of them are real, and the
computed peer map with its strong peer count. -/
structure peer_info where
  my_position : List Int
  my_position_count : Nat
  peers : List (X25519 × String)
  strong_peers : Nat
deriving DecidableEq

/-- The peer_info constructor: insert the callers own pubkey into the
exclude set, locate the caller in every quorum, gather and resolve the
need_remotes set, and run compute_peers over all quorums.  The connection
matrix functions quorum_outgoing_conns / quorum_incoming_conns and the
identity directory are external collaborators passed as functions. -/
def mk_peer_info (oc ic : Int → Nat → List Nat)
    (sn_lookup : Pubkey → Option sn_proof) (my_pubkey : Pubkey)
    (quorums : List (List Pubkey)) (opportunistic : Bool)
    (exclude0 : List Pubkey) : peer_info :=
  let exclude := my_pubkey :: exclude0
  let my_position := quorums.map (find_position my_pubkey)
  let my_position_count := (my_position.filter (fun p => decide (0 ≤ p))).length
  let need := need_remotes_list oc ic opportunistic exclude quorums my_position
  let remotes := remotes_map sn_lookup need
  let st := (List.range quorums.length).foldl
    (compute_peers_step remotes oc ic opportunistic quorums my_position) ⟨[], 0⟩
  { my_position := my_position, my_position_count := my_position_count,
    peers := st.peers, strong_peers := st.strong_peers }

/-- Connection matrix for the C2 scenario: no outgoing connections. -/
def c2_oc : Int → Nat → List Nat := fun _ _ => []

/-- Connection matrix for the C2 scenario: position 2 of a quorum of four
has position 0 as its incoming source. -/
def c2_ic : Int → Nat → List Nat :=
  fun pos size => if pos = 2 ∧ size = 4 then [0] else []

/-- Identity directory for the C2 scenario: both bridge candidates (pubkey
1 of Q at the buggy index and pubkey 11 of the next quorum at the intended
index) are active and resolvable. -/
def c2_sn_lookup : Pubkey → Option sn_proof := fun pk =>
  if pk = 1 then some { x25519 := 101, addr := "tcp://1" }
  else if pk = 11 then some { x25519 := 111, addr := "tcp://11" }
  else none

/-- The C2 scenario: the caller (pubkey 3) sits at position 2 of the first
blink subquorum [1,2,3,4] and is not in the second subquorum
[11,12,13,14]; half = 2, so its position is in [half, 2*half). -/
def c2_pinfo : peer_info :=
  mk_peer_info c2_oc c2_ic c2_sn_lookup 3 [[1, 2, 3, 4], [11, 12, 13, 14]] true []

/-- C2: the claim requires a strong edge to position 2 - 2 = 0 of the NEXT
subquorum, i.e. to pubkey 11 (x25519 key 111).  The code instead indexes
its own subquorum validator list: no edge at all is added for 11, while
pubkey 1 (x25519 key 101), position 0 of the callers own quorum, ends up
as the single strong peer — upgraded by the bridge call from the weak
entry its incoming connection had created. -/
theorem compute_peers_forward_bridge_wrong_quorum :
    peers_find c2_pinfo.peers 111 = none ∧
    peers_find c2_pinfo.peers 101 = some "tcp://1" ∧
    c2_pinfo.strong_peers = 1 := by
  refine ⟨rfl, rfl, rfl⟩

/-- Lookup distributes over appending to the peers map when the key is not
in the front part. -/
theorem peers_find_append_of_none (ps qs : List (X25519 × String)) (x : X25519)
    (h : peers_find ps x = none) : peers_find (ps ++ qs) x = peers_find qs x := by
  induction ps with
  | nil => rfl
  | cons p ps ih =>
      by_cases hp : p.1 = x
      · simp [peers_find, List.find?, hp] at h
      · simp only [peers_find, List.cons_append, List.find?] at h ⊢
        simp only [hp, decide_False] at h ⊢
        exact ih h

/-- Upgrading an entry in place rewrites exactly the looked-up value. -/
theorem peers_find_map_update (ps : List (X25519 × String)) (x : X25519) (a : String) :
    peers_find (ps.map (fun p => if p.1 = x then (p.1, a) else p)) x =
      (peers_find ps x).map (fun _ => a) := by
  induction ps with
  | nil => rfl
  | cons p ps ih =>
      by_cases hp : p.1 = x
      · rw [List.map_cons, if_pos hp]
        unfold peers_find
        rw [List.find?_cons_of_pos _ (by simp [hp]), List.find?_cons_of_pos _ (by simp [hp])]
        rfl
      · rw [List.map_cons, if_neg hp]
        unfold peers_find
        rw [List.find?_cons_of_neg _ (by simp [hp]), List.find?_cons_of_neg _ (by simp [hp])]
        exact ih

/-- Connection matrix for the C4 scenario: no outgoing connections. -/
def c4_oc : Int → Nat → List Nat := fun _ _ => []

/-- Connection matrix for the C4 scenario: position 1 of a quorum of four
has position 0 as its incoming source. -/
def c4_ic : Int → Nat → List Nat :=
  fun pos size => if pos = 1 ∧ size = 4 then [0] else []

/-- Identity directory for the C4 scenario: the bridge target pubkey 4 is
active and resolvable. -/
def c4_sn_lookup : Pubkey → Option sn_proof := fun pk =>
  if pk = 4 then some { x25519 := 104, addr := "tcp://4" } else none

/-- The C4 scenario: the caller (pubkey 5) sits at position 1 of the second
blink subquorum [4,5,6,7] and is not in the first subquorum [1,2,3,4];
half = 2 and 1 < 2, so the reverse bridge targets position 2 + 1 = 3 of
the first subquorum, pubkey 4 — which, being also position 0 of the second
subquorum, is already present as a weak opportunistic peer. -/
def c4_pinfo : peer_info :=
  mk_peer_info c4_oc c4_ic c4_sn_lookup 5 [[1, 2, 3, 4], [4, 5, 6, 7]] true []

/-- C4 counterexample: the claim says the reverse-bridge target is added as
a weak opportunistic peer, i.e. with an empty connect string.  In the code
the add_peer call uses the default strong = true: the target (x25519 key
104) ends with the non-empty connect string, upgraded from the weak entry
the incoming-connection pass had created, and is counted as a strong
peer. -/
theorem reverse_bridge_weak_counterexample :
    peers_find c4_pinfo.peers 104 = some "tcp://4" ∧
    c4_pinfo.strong_peers = 1 := by
  refine ⟨rfl, rfl⟩

/-- C4 amended: when the caller is in quorum i at a position below half
and not in quorum i-1, the reverse inter-quorum bridge adds the validator
at position half + pos of quorum i-1 as a STRONG peer: whenever that
target resolves in remotes to a proof with a non-empty connect string, it
ends up in the peers map with a non-empty connect string (freshly added
strong, upgraded from weak, or already strong). -/
theorem reverse_bridge_adds_strong
    (remotes : Pubkey → Option sn_proof) (quorums : List (List Pubkey))
    (my_position : List Int) (i : Nat) (st : PeerState)
    (q prev_q : List Pubkey) (pos : Int) (half : Nat) (target : Pubkey) (pr : sn_proof)
    (hq : quorums.getD i [] = q) (hprevq : quorums.getD (i - 1) [] = prev_q)
    (hpos : my_position.getD i (-1) = pos)
    (hi : 0 < i) (hprev : my_position.getD (i - 1) (-1) < 0)
    (hhalf : (min q.length prev_q.length) / 2 = half)
    (hlt : pos < (half : Int))
    (htarget : prev_q.getD ((half : Int) + pos).toNat 0 = target)
    (hrem : remotes target = some pr) (haddr : pr.addr ≠ "") :
    ∃ s, peers_find (reverse_bridge_add remotes quorums my_position i st).peers pr.x25519
        = some s ∧ s ≠ "" := by
  rw [reverse_bridge_add]
  simp only [hq, hprevq, hpos, hhalf, htarget, if_pos (And.intro hi hprev), if_pos hlt]
  rw [add_peer]
  simp only [hrem]
  split
  · rename_i heq
    refine ⟨pr.addr, ?_, haddr⟩
    show peers_find (st.peers ++ [(pr.x25519, pr.addr)]) pr.x25519 = some pr.addr
    rw [peers_find_append_of_none _ _ _ heq]
    unfold peers_find
    rw [List.find?_cons_of_pos _ (by simp)]
    rfl
  · rename_i existing heq
    by_cases hex : existing = ""
    · subst hex
      refine ⟨pr.addr, ?_, haddr⟩
      show peers_find (st.peers.map (fun p => if p.1 = pr.x25519 then (p.1, pr.addr) else p))
          pr.x25519 = some pr.addr
      rw [peers_find_map_update, heq]
      rfl
    · refine ⟨existing, ?_, hex⟩
      rw [if_neg (fun hc => hex (And.right hc))]
      exact heq

/-- C4 amended witness: the reverse bridge applied in the C4 scenario from
the empty peer state yields a strong (non-empty address) entry for the
target pubkey 4. -/
theorem reverse_bridge_adds_strong_witness :
    ∃ s, peers_find (reverse_bridge_add c4_sn_lookup [[1, 2, 3, 4], [4, 5, 6, 7]]
        [-1, 1] 1 { peers := [], strong_peers := 0 }).peers 104 = some s ∧ s ≠ "" :=
  reverse_bridge_adds_strong c4_sn_lookup [[1, 2, 3, 4], [4, 5, 6, 7]] [-1, 1] 1
    { peers := [], strong_peers := 0 } [4, 5, 6, 7] [1, 2, 3, 4] 1 2 4
    { x25519 := 104, addr := "tcp://4" }
    rfl rfl rfl (by decide) (by decide) rfl (by decide) rfl rfl (by decide)

/-- Modelled from the spec: the per-subquorum signature slot store of a
blink transaction (component F; cryptonote_core/tx_blink is not among the
provided sources).  One slot list per subquorum, sized by the subquorum
validator count; a slot is either empty or holds the approval flag and the
signature bytes (abstracted to Nat). -/
structure blink_tx where
  slots : List (List (Option (Bool × Nat)))
deriving DecidableEq

/-- Signature slot states as exposed by get_signature_status. -/
inductive signature_status
  | none
  | approved
  | rejected
deriving DecidableEq

/-- Status of one slot. -/
def slot_status : Option (Bool × Nat) → signature_status
  | Option.none => signature_status.none
  | some (true, _) => signature_status.approved
  | some (false, _) => signature_status.rejected

/-- Modelled from the spec: get_signature_status reads the slot of the
given subquorum and position. -/
def get_signature_status (btx : blink_tx) (qi pos : Nat) : signature_status :=
  slot_status ((btx.slots.getD qi []).getD pos none)

/-- Store a value into the slot of the given subquorum and position. -/
def set_slot (btx : blink_tx) (qi pos : Nat) (val : Bool × Nat) : blink_tx :=
  { slots := btx.slots.set qi ((btx.slots.getD qi []).set pos (some val)) }

/-- Modelled from the spec: add_prechecked_signature stores the approval
flag and signature and reports true when the slot is still empty, and
otherwise reports false leaving the store unchanged. -/
def add_prechecked_signature (btx : blink_tx) (qi pos : Nat) (approval : Bool)
    (sig : Nat) : Bool × blink_tx :=
  if get_signature_status btx qi pos = signature_status.none then
    (true, set_slot btx qi pos (approval, sig))
  else (false, btx)

/-- Number of approval signatures in a subquorum slot list. -/
def approval_count (l : List (Option (Bool × Nat))) : Nat :=
  l.countP (fun s => slot_status s = signature_status.approved)

/-- Number of rejection signatures in a subquorum slot list. -/
def rejection_count (l : List (Option (Bool × Nat))) : Nat :=
  l.countP (fun s => slot_status s = signature_status.rejected)

/-- Modelled from the spec: approved() holds once every subquorum has at
least BLINK_MIN_VOTES approval signatures. -/
def blink_approved (btx : blink_tx) : Bool :=
  btx.slots.all (fun l => BLINK_MIN_VOTES ≤ approval_count l)

/-- Modelled from the spec: rejected() holds once some subquorum has more
than size - BLINK_MIN_VOTES rejection signatures, making approval
unreachable there. -/
def blink_rejected (btx : blink_tx) : Bool :=
  btx.slots.any (fun l => l.length - BLINK_MIN_VOTES < rejection_count l)

/-- A pending blink signature as carried in the pending_signature tuple of
quorumnet.cpp: approval flag, subquorum index, subquorum position (an int
in the code) and the signature. -/
structure pending_sig where
  approval : Bool
  qi : Nat
  pos : Int
  sig : Nat
deriving DecidableEq

/-- The insertion loop of process_blink_signatures under the unique lock:
attempt add_prechecked_signature for each signature in order, keeping the
signatures that were stored and dropping those whose slot was taken in the
meantime. -/
def insert_sigs (btx : blink_tx) : List pending_sig → blink_tx × List pending_sig
  | [] => (btx, [])
  | s :: rest =>
      let r := add_prechecked_signature btx s.qi s.pos.toNat s.approval s.sig
      let rest2 := insert_sigs r.2 rest
      (rest2.1, if r.1 then s :: rest2.2 else rest2.2)

/-- What one process_blink_signatures call produces: the signature store
afterwards, the signatures relayed onwards via blink_sign, and the verdict
message (peer, command, tag) sent back, if any. -/
structure process_result where
  btx : blink_tx
  relayed : List pending_sig
  emission : Option (String × String × Nat)
deriving DecidableEq

/-- process_blink_signatures.  Under the shared lock: drop signatures with
an out-of-range subquorum position or an already-occupied slot, and sample
already_approved / already_rejected.  Without a lock: drop signatures that
fail the cryptographic check (check approval validator sig abstracts
crypto::check_signature(btx.hash(approval), validators[qi][pos], sig)).
Under the unique lock: insert the survivors through
add_prechecked_signature, dropping racers, and resample the verdict.
Relay the inserted signatures to the blink peers (the peer set itself is
computed by peer_info and the send is external).  Finally, when a reply
tag and a reply peer are present, send bl_good on an
undecided-to-approved transition, and otherwise bl_bad on an
undecided-to-rejected transition.  Whenever a filtering stage leaves no
signatures the call returns with no relay and no emission. -/
def process_blink_signatures (check : Bool → Pubkey → Nat → Bool)
    (quorums : List (List Pubkey)) (btx : blink_tx)
    (signatures : List pending_sig) (reply_tag : Nat) (reply_pubkey : String) :
    process_result :=
  let sigs1 := signatures.filter (fun s =>
    decide (0 ≤ s.pos) && decide (s.pos < ((quorums.getD s.qi []).length : Int)) &&
    decide (get_signature_status btx s.qi s.pos.toNat = signature_status.none))
  let already_approved := blink_approved btx
  let already_rejected := blink_rejected btx
  if sigs1.isEmpty then { btx := btx, relayed := [], emission := none }
  else
    let sigs2 := sigs1.filter (fun s =>
      check s.approval ((quorums.getD s.qi []).getD s.pos.toNat 0) s.sig)
    if sigs2.isEmpty then { btx := btx, relayed := [], emission := none }
    else
      let inserted := insert_sigs btx sigs2
      if inserted.2.isEmpty then { btx := inserted.1, relayed := [], emission := none }
      else
        let now_approved := blink_approved inserted.1
        let now_rejected := blink_rejected inserted.1
        let emission :=
          if reply_tag ≠ 0 ∧ reply_pubkey ≠ "" then
            if now_approved ∧ ¬ already_approved then
              some (reply_pubkey, "bl_good", reply_tag)
            else if now_rejected ∧ ¬ already_rejected then
              some (reply_pubkey, "bl_bad", reply_tag)
            else none
          else none
        { btx := inserted.1, relayed := inserted.2, emission := emission }

/-- Iterate process_blink_signatures over a sequence of signature batches
arriving for the same blink tx at one entry node, counting the calls that
emit bl_good and the calls that emit bl_bad. -/
def process_chain (check : Bool → Pubkey → Nat → Bool)
    (quorums : List (List Pubkey)) (reply_tag : Nat) (reply_pubkey : String)
    (btx : blink_tx) : List (List pending_sig) → blink_tx × Nat × Nat
  | [] => (btx, 0, 0)
  | b :: rest =>
      let r := process_blink_signatures check quorums btx b reply_tag reply_pubkey
      let t := process_chain check quorums reply_tag reply_pubkey r.btx rest
      (t.1,
       (if r.emission = some (reply_pubkey, "bl_good", reply_tag) then 1 else 0) + t.2.1,
       (if r.emission = some (reply_pubkey, "bl_bad", reply_tag) then 1 else 0) + t.2.2)

theorem countP_disjoint_le_length (l : List (Option (Bool × Nat)))
    (p q : Option (Bool × Nat) → Bool) (hpq : ∀ x, p x = true → q x = false) :
    l.countP p + l.countP q ≤ l.length := by
  induction l with
  | nil => simp
  | cons a l ih =>
      rw [List.countP_cons, List.countP_cons, List.length_cons]
      by_cases hp : p a = true
      · rw [if_pos hp, if_neg (by simp [hpq a hp])]
        omega
      · rw [if_neg hp]
        by_cases hq : q a = true
        · rw [if_pos hq]; omega
        · rw [if_neg hq]; omega

theorem blink_not_approved_and_rejected (btx : blink_tx) :
    ¬ (blink_approved btx = true ∧ blink_rejected btx = true) := by
  rintro ⟨ha, hr⟩
  rw [blink_rejected, List.any_eq_true] at hr
  obtain ⟨l, hl, hcount⟩ := hr
  rw [blink_approved, List.all_eq_true] at ha
  have h1 : BLINK_MIN_VOTES ≤ approval_count l := by simpa using ha l hl
  have h2 : l.length - BLINK_MIN_VOTES < rejection_count l := by simpa using hcount
  have h3 : approval_count l + rejection_count l ≤ l.length :=
    countP_disjoint_le_length l _ _ (fun x hx => by
      simp only [decide_eq_true_eq] at hx
      simp [hx])
  simp only [BLINK_MIN_VOTES] at h1 h2
  omega

theorem insert_sigs_btx_of_kept_nil (l : List pending_sig) (btx : blink_tx)
    (h : (insert_sigs btx l).2 = []) : (insert_sigs btx l).1 = btx := by
  induction l generalizing btx with
  | nil => rfl
  | cons s rest ih =>
      simp only [insert_sigs] at h ⊢
      by_cases hok : (add_prechecked_signature btx s.qi s.pos.toNat s.approval s.sig).1 = true
      · rw [if_pos hok] at h
        simp at h
      · rw [if_neg hok] at h
        have hst : (add_prechecked_signature btx s.qi s.pos.toNat s.approval s.sig).2 = btx := by
          rw [add_prechecked_signature] at hok ⊢
          by_cases hnone : get_signature_status btx s.qi s.pos.toNat = signature_status.none
          · rw [if_pos hnone] at hok
            simp at hok
          · rw [if_neg hnone]
        rw [hst] at h ⊢
        exact ih btx h

theorem countP_le_countP_set (l : List (Option (Bool × Nat))) (pos : Nat)
    (x : Option (Bool × Nat)) (p : Option (Bool × Nat) → Bool)
    (hold : p (l.getD pos none) = false) :
    l.countP p ≤ (l.set pos x).countP p := by
  induction l generalizing pos with
  | nil => simp
  | cons a l ih =>
      cases pos with
      | zero =>
          rw [List.getD_cons_zero] at hold
          rw [List.set_cons_zero, List.countP_cons, List.countP_cons,
            if_neg (by simp [hold])]
          omega
      | succ n =>
          rw [List.getD_cons_succ] at hold
          rw [List.set_cons_succ, List.countP_cons, List.countP_cons]
          have := ih n hold
          omega

theorem all_set_of_all (l : List (List (Option (Bool × Nat)))) (i : Nat)
    (x : List (Option (Bool × Nat))) (p : List (Option (Bool × Nat)) → Bool)
    (hall : l.all p = true) (hx : p x = true) : (l.set i x).all p = true := by
  induction l generalizing i with
  | nil => simp
  | cons a l ih =>
      rw [List.all_cons, Bool.and_eq_true] at hall
      cases i with
      | zero => rw [List.set_cons_zero, List.all_cons, hx, hall.2]; rfl
      | succ n => rw [List.set_cons_succ, List.all_cons, hall.1, ih n hall.2]; rfl

theorem any_set_of_any (l : List (List (Option (Bool × Nat)))) (i : Nat)
    (x : List (Option (Bool × Nat))) (p : List (Option (Bool × Nat)) → Bool)
    (himp : p (l.getD i []) = true → p x = true)
    (h : l.any p = true) : (l.set i x).any p = true := by
  induction l generalizing i with
  | nil => simp at h
  | cons a l ih =>
      rw [List.any_cons, Bool.or_eq_true] at h
      cases i with
      | zero =>
          rw [List.getD_cons_zero] at himp
          rw [List.set_cons_zero, List.any_cons, Bool.or_eq_true]
          cases h with
          | inl ha => exact Or.inl (himp ha)
          | inr hl => exact Or.inr hl
      | succ n =>
          rw [List.getD_cons_succ] at himp
          rw [List.set_cons_succ, List.any_cons, Bool.or_eq_true]
          cases h with
          | inl ha => exact Or.inl ha
          | inr hl => exact Or.inr (ih n himp hl)

/-- Storing into an empty slot never lowers the approval count of the
subquorum list. -/
theorem approval_count_le_set (l : List (Option (Bool × Nat))) (pos : Nat)
    (val : Bool × Nat) (hnone : slot_status (l.getD pos none) = signature_status.none) :
    approval_count l ≤ approval_count (l.set pos (some val)) :=
  countP_le_countP_set l pos (some val) _ (by simp only [hnone]; rfl)

/-- Storing into an empty slot never lowers the rejection count of the
subquorum list. -/
theorem rejection_count_le_set (l : List (Option (Bool × Nat))) (pos : Nat)
    (val : Bool × Nat) (hnone : slot_status (l.getD pos none) = signature_status.none) :
    rejection_count l ≤ rejection_count (l.set pos (some val)) :=
  countP_le_countP_set l pos (some val) _ (by simp only [hnone]; rfl)

/-- The verdict approved() is monotone under add_prechecked_signature. -/
theorem blink_approved_mono_add (btx : blink_tx) (qi pos : Nat) (a : Bool) (g : Nat)
    (h : blink_approved btx = true) :
    blink_approved (add_prechecked_signature btx qi pos a g).2 = true := by
  rw [add_prechecked_signature]
  by_cases hnone : get_signature_status btx qi pos = signature_status.none
  · rw [if_pos hnone]
    rw [blink_approved] at h ⊢
    rw [set_slot]
    by_cases hqi : qi < btx.slots.length
    · refine all_set_of_all _ _ _ _ h ?_
      rw [get_signature_status] at hnone
      have hle : approval_count (btx.slots.getD qi []) ≤
          approval_count ((btx.slots.getD qi []).set pos (some (a, g))) :=
        approval_count_le_set _ _ _ hnone
      have hmem : btx.slots.getD qi [] ∈ btx.slots := by
        rw [List.getD_eq_getElem?_getD, List.getElem?_eq_getElem hqi]
        exact List.getElem_mem _
      rw [List.all_eq_true] at h
      have h2 := h _ hmem
      simp only [decide_eq_true_eq] at h2 ⊢
      omega
    · rw [List.set_eq_of_length_le (by omega)]
      exact h
  · rw [if_neg hnone]
    exact h

/-- The verdict rejected() is monotone under add_prechecked_signature. -/
theorem blink_rejected_mono_add (btx : blink_tx) (qi pos : Nat) (a : Bool) (g : Nat)
    (h : blink_rejected btx = true) :
    blink_rejected (add_prechecked_signature btx qi pos a g).2 = true := by
  rw [add_prechecked_signature]
  by_cases hnone : get_signature_status btx qi pos = signature_status.none
  · rw [if_pos hnone]
    rw [blink_rejected] at h ⊢
    rw [set_slot]
    refine any_set_of_any _ _ _ _ ?_ h
    intro hq
    rw [get_signature_status] at hnone
    have hle : rejection_count (btx.slots.getD qi []) ≤
        rejection_count ((btx.slots.getD qi []).set pos (some (a, g))) :=
      rejection_count_le_set _ _ _ hnone
    simp only [decide_eq_true_eq] at hq ⊢
    rw [List.length_set]
    omega
  · rw [if_neg hnone]
    exact h

/-- The verdict approved() is monotone under the insertion loop. -/
theorem blink_approved_mono_insert (l : List pending_sig) (btx : blink_tx)
    (h : blink_approved btx = true) : blink_approved (insert_sigs btx l).1 = true := by
  induction l generalizing btx with
  | nil => exact h
  | cons s rest ih =>
      simp only [insert_sigs]
      exact ih _ (blink_approved_mono_add btx s.qi s.pos.toNat s.approval s.sig h)

/-- The verdict rejected() is monotone under the insertion loop. -/
theorem blink_rejected_mono_insert (l : List pending_sig) (btx : blink_tx)
    (h : blink_rejected btx = true) : blink_rejected (insert_sigs btx l).1 = true := by
  induction l generalizing btx with
  | nil => exact h
  | cons s rest ih =>
      simp only [insert_sigs]
      exact ih _ (blink_rejected_mono_add btx s.qi s.pos.toNat s.approval s.sig h)

theorem bool_true_false_absurd {b : Bool} (h1 : b = true) (h2 : b = false) : False := by
  rw [h1] at h2
  cases h2

theorem process_emission_good_iff (check : Bool → Pubkey → Nat → Bool)
    (quorums : List (List Pubkey)) (btx : blink_tx) (sigs : List pending_sig)
    (reply_tag : Nat) (reply_pubkey : String)
    (htag : reply_tag ≠ 0) (hpk : reply_pubkey ≠ "") :
    ((process_blink_signatures check quorums btx sigs reply_tag reply_pubkey).emission =
        some (reply_pubkey, "bl_good", reply_tag)) ↔
      (blink_approved (process_blink_signatures check quorums btx sigs reply_tag reply_pubkey).btx = true ∧
       blink_approved btx = false) := by
  simp only [process_blink_signatures]
  split_ifs with h1 h2 h3 h4 h5 h6
  · exact iff_of_false (by simp) (fun h => bool_true_false_absurd h.1 h.2)
  · exact iff_of_false (by simp) (fun h => bool_true_false_absurd h.1 h.2)
  · have heq := insert_sigs_btx_of_kept_nil _ btx (List.isEmpty_iff.mp h3)
    simp only [heq]
    exact iff_of_false (by simp) (fun h => bool_true_false_absurd h.1 h.2)
  · exact iff_of_true rfl ⟨h5.1, by rw [← Bool.not_eq_true]; exact h5.2⟩
  · refine iff_of_false ?_ (fun h => h5 ⟨h.1, by simp [h.2]⟩)
    intro hx
    simp only [Option.some.injEq, Prod.mk.injEq] at hx
    exact absurd hx.2.1 (by decide)
  · exact iff_of_false (by simp) (fun h => h5 ⟨h.1, by simp [h.2]⟩)
  · exact absurd (And.intro htag hpk) h4

theorem process_emission_bad_iff (check : Bool → Pubkey → Nat → Bool)
    (quorums : List (List Pubkey)) (btx : blink_tx) (sigs : List pending_sig)
    (reply_tag : Nat) (reply_pubkey : String)
    (htag : reply_tag ≠ 0) (hpk : reply_pubkey ≠ "") :
    ((process_blink_signatures check quorums btx sigs reply_tag reply_pubkey).emission =
        some (reply_pubkey, "bl_bad", reply_tag)) ↔
      (blink_rejected (process_blink_signatures check quorums btx sigs reply_tag reply_pubkey).btx = true ∧
       blink_rejected btx = false) := by
  simp only [process_blink_signatures]
  split_ifs with h1 h2 h3 h4 h5 h6
  · exact iff_of_false (by simp) (fun h => bool_true_false_absurd h.1 h.2)
  · exact iff_of_false (by simp) (fun h => bool_true_false_absurd h.1 h.2)
  · have heq := insert_sigs_btx_of_kept_nil _ btx (List.isEmpty_iff.mp h3)
    simp only [heq]
    exact iff_of_false (by simp) (fun h => bool_true_false_absurd h.1 h.2)
  · refine iff_of_false ?_ (fun h => blink_not_approved_and_rejected _ ⟨h5.1, h.1⟩)
    intro hx
    simp only [Option.some.injEq, Prod.mk.injEq] at hx
    exact absurd hx.2.1 (by decide)
  · exact iff_of_true rfl ⟨h6.1, by rw [← Bool.not_eq_true]; exact h6.2⟩
  · exact iff_of_false (by simp) (fun h => h6 ⟨h.1, by simp [h.2]⟩)
  · exact absurd (And.intro htag hpk) h4

theorem process_preserves_approved (check : Bool → Pubkey → Nat → Bool)
    (quorums : List (List Pubkey)) (btx : blink_tx) (sigs : List pending_sig)
    (reply_tag : Nat) (reply_pubkey : String) (h : blink_approved btx = true) :
    blink_approved (process_blink_signatures check quorums btx sigs reply_tag reply_pubkey).btx
      = true := by
  simp only [process_blink_signatures]
  split_ifs <;> first
    | exact h
    | exact blink_approved_mono_insert _ _ h

theorem process_preserves_rejected (check : Bool → Pubkey → Nat → Bool)
    (quorums : List (List Pubkey)) (btx : blink_tx) (sigs : List pending_sig)
    (reply_tag : Nat) (reply_pubkey : String) (h : blink_rejected btx = true) :
    blink_rejected (process_blink_signatures check quorums btx sigs reply_tag reply_pubkey).btx
      = true := by
  simp only [process_blink_signatures]
  split_ifs <;> first
    | exact h
    | exact blink_rejected_mono_insert _ _ h

theorem process_chain_good_zero (check : Bool → Pubkey → Nat → Bool)
    (quorums : List (List Pubkey)) (reply_tag : Nat) (reply_pubkey : String)
    (htag : reply_tag ≠ 0) (hpk : reply_pubkey ≠ "")
    (batches : List (List pending_sig)) (btx : blink_tx)
    (h : blink_approved btx = true) :
    (process_chain check quorums reply_tag reply_pubkey btx batches).2.1 = 0 := by
  induction batches generalizing btx with
  | nil => rfl
  | cons b rest ih =>
      simp only [process_chain]
      have hne : ¬ ((process_blink_signatures check quorums btx b reply_tag reply_pubkey).emission =
          some (reply_pubkey, "bl_good", reply_tag)) := fun hc =>
        bool_true_false_absurd h
          ((process_emission_good_iff check quorums btx b reply_tag reply_pubkey htag hpk).mp hc).2
      rw [if_neg hne,
        ih _ (process_preserves_approved check quorums btx b reply_tag reply_pubkey h)]

theorem process_chain_bad_zero (check : Bool → Pubkey → Nat → Bool)
    (quorums : List (List Pubkey)) (reply_tag : Nat) (reply_pubkey : String)
    (htag : reply_tag ≠ 0) (hpk : reply_pubkey ≠ "")
    (batches : List (List pending_sig)) (btx : blink_tx)
    (h : blink_rejected btx = true) :
    (process_chain check quorums reply_tag reply_pubkey btx batches).2.2 = 0 := by
  induction batches generalizing btx with
  | nil => rfl
  | cons b rest ih =>
      simp only [process_chain]
      have hne : ¬ ((process_blink_signatures check quorums btx b reply_tag reply_pubkey).emission =
          some (reply_pubkey, "bl_bad", reply_tag)) := fun hc =>
        bool_true_false_absurd h
          ((process_emission_bad_iff check quorums btx b reply_tag reply_pubkey htag hpk).mp hc).2
      rw [if_neg hne,
        ih _ (process_preserves_rejected check quorums btx b reply_tag reply_pubkey h)]

theorem process_chain_good_le_one (check : Bool → Pubkey → Nat → Bool)
    (quorums : List (List Pubkey)) (reply_tag : Nat) (reply_pubkey : String)
    (htag : reply_tag ≠ 0) (hpk : reply_pubkey ≠ "")
    (batches : List (List pending_sig)) (btx : blink_tx) :
    (process_chain check quorums reply_tag reply_pubkey btx batches).2.1 ≤ 1 := by
  induction batches generalizing btx with
  | nil => exact Nat.zero_le 1
  | cons b rest ih =>
      simp only [process_chain]
      by_cases hc : (process_blink_signatures check quorums btx b reply_tag reply_pubkey).emission =
          some (reply_pubkey, "bl_good", reply_tag)
      · rw [if_pos hc,
          process_chain_good_zero check quorums reply_tag reply_pubkey htag hpk rest _
            ((process_emission_good_iff check quorums btx b reply_tag reply_pubkey htag hpk).mp hc).1]
      · rw [if_neg hc, Nat.zero_add]
        exact ih _

theorem process_chain_bad_le_one (check : Bool → Pubkey → Nat → Bool)
    (quorums : List (List Pubkey)) (reply_tag : Nat) (reply_pubkey : String)
    (htag : reply_tag ≠ 0) (hpk : reply_pubkey ≠ "")
    (batches : List (List pending_sig)) (btx : blink_tx) :
    (process_chain check quorums reply_tag reply_pubkey btx batches).2.2 ≤ 1 := by
  induction batches generalizing btx with
  | nil => exact Nat.zero_le 1
  | cons b rest ih =>
      simp only [process_chain]
      by_cases hc : (process_blink_signatures check quorums btx b reply_tag reply_pubkey).emission =
          some (reply_pubkey, "bl_bad", reply_tag)
      · rw [if_pos hc,
          process_chain_bad_zero check quorums reply_tag reply_pubkey htag hpk rest _
            ((process_emission_bad_iff check quorums btx b reply_tag reply_pubkey htag hpk).mp hc).1]
      · rw [if_neg hc, Nat.zero_add]
        exact ih _

/-- C7: when process_blink_signatures is called with a nonzero reply tag
(and a reply peer), a bl_good message carrying the tag is sent to the
reply peer exactly when approved() was false before the insertion of the
surviving signatures and is true afterwards, and a bl_bad is sent exactly
when rejected() flipped in the same way; consequently, over any sequence
of signature batches processed for the same blink tx at one entry node,
bl_good is emitted at most once and bl_bad is emitted at most once. -/
theorem process_blink_signatures_spec (check : Bool → Pubkey → Nat → Bool)
    (quorums : List (List Pubkey)) (btx : blink_tx) (sigs : List pending_sig)
    (reply_tag : Nat) (reply_pubkey : String)
    (htag : reply_tag ≠ 0) (hpk : reply_pubkey ≠ "") :
    (((process_blink_signatures check quorums btx sigs reply_tag reply_pubkey).emission =
        some (reply_pubkey, "bl_good", reply_tag)) ↔
      (blink_approved (process_blink_signatures check quorums btx sigs reply_tag reply_pubkey).btx = true ∧
       blink_approved btx = false)) ∧
    (((process_blink_signatures check quorums btx sigs reply_tag reply_pubkey).emission =
        some (reply_pubkey, "bl_bad", reply_tag)) ↔
      (blink_rejected (process_blink_signatures check quorums btx sigs reply_tag reply_pubkey).btx = true ∧
       blink_rejected btx = false)) ∧
    (∀ batches : List (List pending_sig),
      (process_chain check quorums reply_tag reply_pubkey btx batches).2.1 ≤ 1 ∧
      (process_chain check quorums reply_tag reply_pubkey btx batches).2.2 ≤ 1) :=
  ⟨process_emission_good_iff check quorums btx sigs reply_tag reply_pubkey htag hpk,
   process_emission_bad_iff check quorums btx sigs reply_tag reply_pubkey htag hpk,
   fun batches =>
     ⟨process_chain_good_le_one check quorums reply_tag reply_pubkey htag hpk batches btx,
      process_chain_bad_le_one check quorums reply_tag reply_pubkey htag hpk batches btx⟩⟩

/-- Two blink subquorums of seven validators each for the C7 witness. -/
def c7_quorums : List (List Pubkey) :=
  [[1, 2, 3, 4, 5, 6, 7], [1, 2, 3, 4, 5, 6, 7]]

/-- A fresh blink tx with all slots empty for the C7 witness. -/
def c7_btx : blink_tx :=
  { slots := [List.replicate 7 none, List.replicate 7 none] }

/-- A signature checker that accepts everything, for the C7 witness. -/
def c7_check : Bool → Pubkey → Nat → Bool := fun _ _ _ => true

/-- A single approval signature for subquorum 0 position 0. -/
def c7_sigs : List pending_sig := [{ approval := true, qi := 0, pos := 0, sig := 9 }]

/-- C7 witness: the specification theorem applied at a concrete call with
reply tag 5 and reply peer "peer". -/
theorem process_blink_signatures_spec_witness :
    (5 : Nat) ≠ 0 ∧ ("peer" : String) ≠ "" ∧
    ((((process_blink_signatures c7_check c7_quorums c7_btx c7_sigs 5 "peer").emission =
        some ("peer", "bl_good", 5)) ↔
      (blink_approved (process_blink_signatures c7_check c7_quorums c7_btx c7_sigs 5 "peer").btx = true ∧
       blink_approved c7_btx = false)) ∧
    (((process_blink_signatures c7_check c7_quorums c7_btx c7_sigs 5 "peer").emission =
        some ("peer", "bl_bad", 5)) ↔
      (blink_rejected (process_blink_signatures c7_check c7_quorums c7_btx c7_sigs 5 "peer").btx = true ∧
       blink_rejected c7_btx = false)) ∧
    (∀ batches : List (List pending_sig),
      (process_chain c7_check c7_quorums 5 "peer" c7_btx batches).2.1 ≤ 1 ∧
      (process_chain c7_check c7_quorums 5 "peer" c7_btx batches).2.2 ≤ 1)) :=
  ⟨by decide, by decide,
   process_blink_signatures_spec c7_check c7_quorums c7_btx c7_sigs 5 "peer"
     (by decide) (by decide)⟩

/-- Incrementing a counter adds exactly one to the counter read back. -/
theorem get_count_bump (e : blink_result_data) (k : response_kind) :
    get_count (bump_count e k) k = get_count e k + 1 := by
  cases k <;> rfl

/-- bump_count does not change the entry tag. -/
theorem bump_count_tag (e : blink_result_data) (k : response_kind) :
    (bump_count e k).tag = e.tag := by
  cases k <;> rfl

/-- After erasing every entry with the tag, a lookup of the tag fails. -/
theorem find?_filter_ne_tag (table : List blink_result_data) (tag : Nat) :
    (table.filter (fun x => x.tag ≠ tag)).find? (fun x => x.tag = tag) = none := by
  rw [List.find?_eq_none]
  intro x hx
  have hne := (List.mem_filter.mp hx).2
  simp only [decide_eq_true_eq] at hne ⊢
  simpa using hne

/-- Updating the found entry in place makes the lookup return the update. -/
theorem find?_map_bump (table : List blink_result_data) (tag : Nat)
    (e : blink_result_data) (k : response_kind)
    (he : table.find? (fun x => x.tag = tag) = some e) :
    (table.map (fun x => if x.tag = tag then bump_count e k else x)).find?
      (fun x => x.tag = tag) = some (bump_count e k) := by
  induction table with
  | nil => simp at he
  | cons a t ih =>
      by_cases ha : a.tag = tag
      · rw [List.find?_cons_of_pos _ (by simp [ha])] at he
        injection he with hae
        subst hae
        rw [List.map_cons, if_pos ha,
          List.find?_cons_of_pos _ (by simp [bump_count_tag, ha])]
      · rw [List.find?_cons_of_neg _ (by simp [ha])] at he
        rw [List.map_cons, if_neg ha, List.find?_cons_of_neg _ (by simp [ha])]
        exact ih he

/-- C8: a response carrying an unknown tag has no effect; for a known tag
the selected counter is incremented by one and the promise is resolved
with the result pair exactly when the incremented counter strictly exceeds
remote_count / 2 — in which case the entry is erased and any further
response for the tag has no effect (the promise is never resolved twice) —
while below the threshold the entry stays with the bumped counter; and the
three handlers resolve with (rejected, e), (rejected, "Transaction
rejected by quorum") and (accepted, "") respectively.  The hypothesis
captures the sequential invariant that live table entries hold unresolved
promises. -/
theorem common_blink_response_spec (table : List blink_result_data) (tag : Nat)
    (res : blink_result) (msg : String) (k : response_kind)
    (hunres : ∀ e ∈ table, e.promise = none) :
    (table.find? (fun e => e.tag = tag) = none →
      common_blink_response table tag res msg k = (table, none)) ∧
    (∀ e, table.find? (fun x => x.tag = tag) = some e →
      (get_count (bump_count e k) k = get_count e k + 1) ∧
      ((common_blink_response table tag res msg k).2 = some (res, msg) ↔
        get_count e k + 1 > e.remote_count / 2) ∧
      ((common_blink_response table tag res msg k).2 = some (res, msg) →
        (common_blink_response table tag res msg k).1.find? (fun x => x.tag = tag) = none ∧
        ∀ res2 msg2 k2,
          common_blink_response (common_blink_response table tag res msg k).1 tag res2 msg2 k2 =
            ((common_blink_response table tag res msg k).1, none)) ∧
      ((common_blink_response table tag res msg k).2 = none →
        (common_blink_response table tag res msg k).1.find? (fun x => x.tag = tag) =
          some (bump_count e k))) ∧
    (∀ emsg, handle_blink_not_started table tag emsg =
      common_blink_response table tag blink_result.rejected emsg response_kind.nostart) ∧
    (handle_blink_failure table tag =
      common_blink_response table tag blink_result.rejected "Transaction rejected by quorum"
        response_kind.bad) ∧
    (handle_blink_success table tag =
      common_blink_response table tag blink_result.accepted "" response_kind.good) := by
  refine ⟨?_, ?_, fun _ => rfl, rfl, rfl⟩
  · intro hnone
    simp only [common_blink_response, hnone]
  · intro e he
    have hmem : e ∈ table := List.mem_of_find?_eq_some he
    have hprom : e.promise = none := hunres e hmem
    have hisnone : e.promise.isNone = true := by rw [hprom]; rfl
    refine ⟨get_count_bump e k, ?_⟩
    simp only [common_blink_response, he]
    by_cases hth : get_count (bump_count e k) k > e.remote_count / 2
    · rw [if_pos hth, if_pos hisnone]
      refine ⟨iff_of_true rfl (by rw [← get_count_bump e k]; exact hth), ?_, ?_⟩
      · intro _
        refine ⟨find?_filter_ne_tag table tag, ?_⟩
        intro res2 msg2 k2
        simp only [common_blink_response, find?_filter_ne_tag table tag]
      · intro hcontra
        cases hcontra
    · rw [if_neg hth]
      refine ⟨iff_of_false (fun hcontra => by cases hcontra)
        (by rw [← get_count_bump e k]; exact hth), ?_, ?_⟩
      · intro hcontra
        cases hcontra
      · intro _
        exact find?_map_bump table tag e k he

/-- A pending entry for the C8 witness: tag 7, four remotes contacted, two
good responses already counted. -/
def c8_entry : blink_result_data :=
  { tag := 7, hash := 70, promise := none, expiry := 1000, remote_count := 4,
    nostart_count := 0, bad_count := 0, good_count := 2 }

/-- C8 witness: the specification theorem applied to a one-entry table in
which a third bl_good response arrives for tag 7, pushing the good counter
over 4 / 2. -/
theorem common_blink_response_spec_witness :
    (∀ e ∈ [c8_entry], e.promise = none) ∧
    ((common_blink_response [c8_entry] 7 blink_result.accepted "" response_kind.good).2 =
        some (blink_result.accepted, "") ↔
      get_count c8_entry response_kind.good + 1 > c8_entry.remote_count / 2) :=
  ⟨by decide,
   ((common_blink_response_spec [c8_entry] 7 blink_result.accepted "" response_kind.good
      (by decide)).2.1 c8_entry (by decide)).2.1⟩

end Quorumnet
